import Mathlib

/-!
Verification of the onramp module (`src/backend/src/onramp.py`): an
in-memory sliding-window rate/spend limiter, a request validator, a bounded
audit log, short-lived signed-credential (JWT) construction, the session
token client viewed as a function of the provider response, and the redirect
URL builder together with standard URL query decoding.

Timestamps are modelled as integer numbers of seconds (the Python code uses
`datetime` values; only their ordering and the fixed offsets of
1 hour = 3600 s and 1 day = 86400 s matter to the claims). Monetary amounts
are rationals (all amounts in the spec's test vectors are exactly
representable floats, so ordering agrees).
Configuration values (`config.*`) come from a module that is not part of the
source tree, so they are parameters of the model.
-/

namespace Onramp

/-- Configuration values read from the external `config` module. -/
structure Config where
  ONRAMP_MAX_REQUESTS_PER_HOUR : ℕ
  ONRAMP_MAX_AMOUNT_PER_DAY : ℚ
  ONRAMP_MAX_AMOUNT_PER_TX : ℚ
  COINBASE_API_KEY : String
  COINBASE_API_SECRET : String

/-- Per-client record in `rate_limit_store`: request timestamps and
`(timestamp, amount)` spend entries. -/
structure RateRecord where
  requests : List ℤ
  daily_amount : List (ℤ × ℚ)
deriving DecidableEq

/-- The empty record created on first observation of a client. -/
def RateRecord.empty : RateRecord := ⟨[], []⟩

/-- `rate_limit_store`: a partial map from client identifier (IP string) to
its rate record. -/
def Store : Type := String → Option RateRecord

/-- Store with no records. -/
def Store.empty : Store := fun _ => none

/-- Point update of the store. -/
def Store.insert (s : Store) (ip : String) (r : RateRecord) : Store :=
  fun k => if k = ip then some r else s k

/-- Messages returned by the limiter: the rate message carries the computed
`minutes_left`, the daily message is the fixed daily-limit text. -/
inductive LimitMsg where
  | rate (minutes : ℤ)
  | daily
deriving DecidableEq

/-- `OnrampRateLimiter.check_rate_limit`: creates the record if absent,
prunes `requests` to timestamps `> now - 1 hour` and `daily_amount` to
timestamps `> now - 1 day`, then denies iff the remaining request count is
`≥ config.ONRAMP_MAX_REQUESTS_PER_HOUR`. Returns the updated store, the
allowed flag, and the optional message. -/
def check_rate_limit (cfg : Config) (now : ℤ) (store : Store) (ip : String) :
    Store × Bool × Option LimitMsg :=
  let hour_ago := now - 3600
  let day_ago := now - 86400
  let record := (store ip).getD RateRecord.empty
  let requests := record.requests.filter (fun ts => decide (hour_ago < ts))
  let daily := record.daily_amount.filter (fun p => decide (day_ago < p.1))
  let store1 := store.insert ip ⟨requests, daily⟩
  if cfg.ONRAMP_MAX_REQUESTS_PER_HOUR ≤ requests.length then
    (store1, false,
      requests.head?.map (fun t => .rate ((t - hour_ago) / 60)))
  else
    (store1, true, none)

/-- `OnrampRateLimiter.check_amount_limit`: if the client is not in the store
it immediately allows; otherwise it sums the spend amounts with timestamp
`> now - 1 day` (without modifying the store) and denies iff the sum plus
the new amount strictly exceeds `config.ONRAMP_MAX_AMOUNT_PER_DAY`. -/
def check_amount_limit (cfg : Config) (now : ℤ) (store : Store) (ip : String)
    (amount : ℚ) : Store × Bool × Option LimitMsg :=
  match store ip with
  | none => (store, true, none)
  | some record =>
    let day_ago := now - 86400
    let daily_total :=
      ((record.daily_amount.filter (fun p => decide (day_ago < p.1))).map
        Prod.snd).sum
    if cfg.ONRAMP_MAX_AMOUNT_PER_DAY < daily_total + amount then
      (store, false, some .daily)
    else
      (store, true, none)

/-- `OnrampRateLimiter.record_request`: appends the current timestamp to
`requests` and `(now, amount)` to `daily_amount`, creating the record if
absent. -/
def record_request (now : ℤ) (store : Store) (ip : String) (amount : ℚ) :
    Store :=
  let record := (store ip).getD RateRecord.empty
  store.insert ip
    ⟨record.requests ++ [now], record.daily_amount ++ [(now, amount)]⟩

/-- One accepted-request cycle as the route uses the limiter:
`check_rate_limit`, and `record_request` only when allowed. -/
def rateCycle (cfg : Config) (now : ℤ) (ip : String) (amount : ℚ)
    (store : Store) : Store × Bool :=
  let r := check_rate_limit cfg now store ip
  if r.2.1 then (record_request now r.1 ip amount, true) else (r.1, false)

/-- `n` check/record cycles in rapid succession (same clock reading),
collecting the allowed flags in call order. -/
def rapidCalls (cfg : Config) (now : ℤ) (ip : String) (amount : ℚ) :
    ℕ → Store → Store × List Bool
  | 0, store => (store, [])
  | n + 1, store =>
    let r := rateCycle cfg now ip amount store
    let rest := rapidCalls cfg now ip amount n r.1
    (rest.1, r.2 :: rest.2)

/-! ### Request validator -/

/-- Validation outcomes of `validate_onramp_request`; each constructor stands
for one of the five error messages (three of which interpolate config
values). -/
inductive VError where
  | invalidAddress
  | amountTooLow
  | amountTooHigh
  | invalidAsset
  | invalidNetwork
deriving DecidableEq

/-- The wallet-address condition of `validate_onramp_request`, line for line:
`not wallet_address or not wallet_address.startswith("0x") or
len(wallet_address) != 42`. Purely structural (length and leading "0x"). -/
def wallet_address_bad (wallet : String) : Bool :=
  wallet.data.isEmpty || !(wallet.data.take 2 = ['0', 'x'] : Bool)
    || !(wallet.data.length = 42 : Bool)

/-- `validate_onramp_request`: five rules checked in order, first failure
wins, `none` when all pass. Pure (no state is read or written). -/
def validate_onramp_request (cfg : Config) (wallet : String) (amount : ℚ)
    (asset : String) (network : String) : Option VError :=
  if wallet_address_bad wallet then some .invalidAddress
  else if amount < 1 then some .amountTooLow
  else if cfg.ONRAMP_MAX_AMOUNT_PER_TX < amount then some .amountTooHigh
  else if ¬ (asset ∈ ["USDC", "ETH", "USDT"]) then some .invalidAsset
  else if ¬ (network ∈ ["base", "ethereum", "polygon"]) then
    some .invalidNetwork
  else none

/-! ### Audit log -/

/-- A `session_logs` entry as built by `log_onramp_session`. -/
structure LogEntry where
  timestamp : ℤ
  session_id : String
  wallet_address : String
  amount_usd : ℚ
  asset : String
  network : String
  ip_address : String
deriving DecidableEq

/-- `log_onramp_session` acting on the `session_logs` list: append the entry,
then `pop(0)` (drop the head) when the length exceeds 1000. -/
def log_onramp_session (logs : List LogEntry) (e : LogEntry) :
    List LogEntry :=
  let logs1 := logs ++ [e]
  if 1000 < logs1.length then logs1.drop 1 else logs1

/-! ### Credential signer (JWT construction) -/

/-- The JWT payload built by `generate_coinbase_jwt`. -/
structure JwtPayload where
  sub : String
  iss : String
  aud : List String
  nbf : ℤ
  exp : ℤ
  uris : List String
deriving DecidableEq

/-- The JWT header built by `generate_coinbase_jwt`. -/
structure JwtHeader where
  alg : String
  kid : String
  typ : String
  nonce : String
deriving DecidableEq

/-- Configuration failure of `generate_coinbase_jwt` (the `ValueError`
raised when the API key or secret is missing). -/
inductive JwtError where
  | configError
deriving DecidableEq

/-- A lowercase hex digit character for a value `< 16`
(`secrets.token_hex` produces lowercase hex). -/
def hexCharLower (d : ℕ) : Char :=
  if d < 10 then Char.ofNat (48 + d) else Char.ofNat (87 + d)

/-- `secrets.token_hex` applied to the given random bytes: two lowercase hex
characters per byte. Randomness is modelled by passing the drawn bytes as an
argument. -/
def token_hex (bytes : List ℕ) : String :=
  ⟨(bytes.map (fun b => [hexCharLower (b / 16), hexCharLower (b % 16)])).flatten⟩

/-- `generate_coinbase_jwt`, up to the signature: the payload and header it
signs, as functions of the config, the clock reading `now = int(time.time())`
and the 16 random nonce bytes. Fails when the key or secret is missing
(Python truthiness of a string: empty means missing). The Ed25519 signature
itself is outside the model (only the signed structure is claimed). -/
def generate_coinbase_jwt (cfg : Config) (now : ℤ) (nonceBytes : List ℕ) :
    Except JwtError (JwtPayload × JwtHeader) :=
  if cfg.COINBASE_API_KEY = "" ∨ cfg.COINBASE_API_SECRET = "" then
    .error .configError
  else
    .ok
      (⟨cfg.COINBASE_API_KEY, "cdp", ["cdp_service"], now, now + 120,
        ["POST api.developer.coinbase.com/onramp/v1/token"]⟩,
       ⟨"EdDSA", cfg.COINBASE_API_KEY, "JWT", token_hex nonceBytes⟩)

/-! ### Session token client (as a function of the provider response) -/

/-- Failures of `get_coinbase_session_token` (the two `ValueError`s raised
from the response handling). -/
inductive TokenError where
  | apiError (status : ℕ) (body : String)
  | noToken
deriving DecidableEq

/-- The provider's HTTP response: status code, raw body text, and the parsed
JSON object restricted to its string fields (the `token` field is a
string). -/
structure CoinbaseResponse where
  status_code : ℕ
  text : String
  json : List (String × String)

/-- The response-handling tail of `get_coinbase_session_token` (lines
194-203): non-200 status raises a remote-API error carrying status and body;
a 200 response without a `token` field raises a protocol error; otherwise
the token string is returned. -/
def get_coinbase_session_token (resp : CoinbaseResponse) :
    Except TokenError String :=
  if resp.status_code ≠ 200 then
    .error (.apiError resp.status_code resp.text)
  else
    match resp.json.lookup "token" with
    | none => .error .noToken
    | some t => .ok t

/-! ### URL builder and standard query encoding

Strings are modelled at the byte level (their UTF-8 encodings, as lists of
naturals below 256), which is the level at which `urllib.parse.urlencode`
operates. The float amount is represented by its decimal rendering
`str(amount_usd)` passed in as a byte string. -/

/-- The bytes of an ASCII string literal. -/
def strBytes (s : String) : List ℕ := s.data.map Char.toNat

/-- The characters `urllib.parse.quote_plus` leaves unescaped with the
default `safe=''`: ASCII letters, digits, and `_ . - ~`. -/
def isSafeByte (b : ℕ) : Bool :=
  (48 ≤ b && b ≤ 57) || (65 ≤ b && b ≤ 90) || (97 ≤ b && b ≤ 122)
    || b == 95 || b == 46 || b == 45 || b == 126

/-- An uppercase hex digit character code for a value `< 16` (`quote`
escapes with uppercase hex). -/
def hexUpper (d : ℕ) : ℕ := if d < 10 then 48 + d else 55 + d

/-- `quote_plus` on a single byte: safe bytes pass through, a space becomes
`+` (43), everything else becomes `%XY` (37 and two uppercase hex digits). -/
def quoteByte (b : ℕ) : List ℕ :=
  if isSafeByte b then [b]
  else if b == 32 then [43]
  else [37, hexUpper (b / 16), hexUpper (b % 16)]

/-- `urllib.parse.quote_plus` over a byte string. -/
def quotePlus (s : List ℕ) : List ℕ := (s.map quoteByte).flatten

/-- Whether a byte is an ASCII hex digit. -/
def isHexByte (b : ℕ) : Bool :=
  (48 ≤ b && b ≤ 57) || (65 ≤ b && b ≤ 70) || (97 ≤ b && b ≤ 102)

/-- Value of an ASCII hex digit byte. -/
def hexVal (b : ℕ) : ℕ :=
  if b ≤ 57 then b - 48 else if b ≤ 70 then b - 55 else b - 87

/-- Modelled from the spec: standard URL query decoding of a single
component (`urllib.parse.unquote_plus`): `+` decodes to a space, `%XY` with
two hex digits decodes to a byte, everything else is literal. -/
def unquotePlus : List ℕ → List ℕ
  | 37 :: x :: y :: rest =>
    if isHexByte x && isHexByte y then
      (hexVal x * 16 + hexVal y) :: unquotePlus rest
    else 37 :: unquotePlus (x :: y :: rest)
  | 43 :: rest => 32 :: unquotePlus rest
  | b :: rest => b :: unquotePlus rest
  | [] => []

/-- Modelled from the spec: split a query string at `&` (38). -/
def splitAmp : List ℕ → List (List ℕ)
  | [] => [[]]
  | b :: rest =>
    if b == 38 then [] :: splitAmp rest
    else
      match splitAmp rest with
      | [] => [[b]]
      | p :: ps => (b :: p) :: ps

/-- Modelled from the spec: decode one `key=value` component, splitting at
the first `=` (61) and percent-decoding both sides. -/
def parsePair (p : List ℕ) : List ℕ × List ℕ :=
  (unquotePlus (p.takeWhile (fun c => c != 61)),
   unquotePlus ((p.dropWhile (fun c => c != 61)).drop 1))

/-- Modelled from the spec: standard URL query-string decoding
(`urllib.parse.parse_qsl`): split at `&`, then decode each `key=value`
pair. -/
def parseQuery (qs : List ℕ) : List (List ℕ × List ℕ) :=
  (splitAmp qs).map parsePair

/-- Join encoded `key=value` components with `&`. -/
def joinAmp : List (List ℕ) → List ℕ
  | [] => []
  | [p] => p
  | p :: q :: ps => p ++ 38 :: joinAmp (q :: ps)

/-- `urllib.parse.urlencode`: percent-encode each key and value with
`quote_plus`, join key and value with `=`, join the pairs with `&`. -/
def urlencode (params : List (List ℕ × List ℕ)) : List ℕ :=
  joinAmp (params.map (fun p => quotePlus p.1 ++ 61 :: quotePlus p.2))

/-- `generate_coinbase_onramp_url` at the byte level: the fixed base
`https://pay.coinbase.com/buy`, a `?` (63), and the urlencoded parameters
`sessionToken`, `defaultAsset`, `defaultNetwork`, `presetFiatAmount` in that
(dict insertion) order; `amountStr` stands for `str(amount_usd)`. -/
def generate_coinbase_onramp_url (session_token amountStr asset network :
    List ℕ) : List ℕ :=
  strBytes "https://pay.coinbase.com/buy" ++ 63 ::
    urlencode
      [(strBytes "sessionToken", session_token),
       (strBytes "defaultAsset", asset),
       (strBytes "defaultNetwork", network),
       (strBytes "presetFiatAmount", amountStr)]

/-! ### Lemmas about the limiter -/

/-- The record that `check_rate_limit` writes back for the client: both
sequences pruned by their windows. -/
lemma check_rate_limit_store (cfg : Config) (now : ℤ) (store : Store)
    (ip : String) :
    (check_rate_limit cfg now store ip).1 ip =
      some ⟨((store ip).getD RateRecord.empty).requests.filter
              (fun ts => decide (now - 3600 < ts)),
            ((store ip).getD RateRecord.empty).daily_amount.filter
              (fun p => decide (now - 86400 < p.1))⟩ := by
  simp only [check_rate_limit]
  split <;> simp [Store.insert]

/-- `check_rate_limit` leaves every other client's record unchanged. -/
lemma check_rate_limit_frame (cfg : Config) (now : ℤ) (store : Store)
    (ip k : String) (hk : k ≠ ip) :
    (check_rate_limit cfg now store ip).1 k = store k := by
  simp only [check_rate_limit]
  split <;> simp [Store.insert, hk]

/-- `check_rate_limit` denies exactly when the pruned request count reaches
the configured hourly maximum. -/
lemma check_rate_limit_allowed_iff (cfg : Config) (now : ℤ) (store : Store)
    (ip : String) :
    (check_rate_limit cfg now store ip).2.1 = false ↔
      cfg.ONRAMP_MAX_REQUESTS_PER_HOUR ≤
        (((store ip).getD RateRecord.empty).requests.filter
          (fun ts => decide (now - 3600 < ts))).length := by
  simp only [check_rate_limit]
  split <;> simp_all

/-- The record written by `record_request`. -/
lemma record_request_store (now : ℤ) (store : Store) (ip : String)
    (amount : ℚ) :
    (record_request now store ip amount) ip =
      some ⟨((store ip).getD RateRecord.empty).requests ++ [now],
            ((store ip).getD RateRecord.empty).daily_amount ++
              [(now, amount)]⟩ := by
  simp [record_request, Store.insert]

/-- Requests all stamped `now` survive the one-hour pruning at `now`. -/
lemma filter_replicate_now (k : ℕ) (now : ℤ) :
    (List.replicate k now).filter (fun ts => decide (now - 3600 < ts)) =
      List.replicate k now := by
  apply List.filter_eq_self.mpr
  intro a ha
  rw [List.eq_of_mem_replicate ha]
  simp only [decide_eq_true_eq]
  omega

/-- Flags returned by `n` rapid check/record cycles when the client already
holds `k` requests stamped `now`, for `k` at most the hourly maximum: the
`i`-th call (0-based) is allowed exactly while `k + i` is below the max. -/
lemma rapidCalls_flags (cfg : Config) (now : ℤ) (ip : String) (amt : ℚ) :
    ∀ (n k : ℕ) (store : Store),
      k ≤ cfg.ONRAMP_MAX_REQUESTS_PER_HOUR →
      ((store ip).getD RateRecord.empty).requests = List.replicate k now →
      (rapidCalls cfg now ip amt n store).2 =
        (List.range n).map
          (fun i => decide (k + i < cfg.ONRAMP_MAX_REQUESTS_PER_HOUR)) := by
  intro n
  induction n with
  | zero => intro k store _ _; simp [rapidCalls]
  | succ n ih =>
    intro k store hk hreq
    have hstore1 := check_rate_limit_store cfg now store ip
    rw [hreq, filter_replicate_now] at hstore1
    have hallow := check_rate_limit_allowed_iff cfg now store ip
    rw [hreq, filter_replicate_now, List.length_replicate] at hallow
    by_cases hkM : k < cfg.ONRAMP_MAX_REQUESTS_PER_HOUR
    · have htrue : (check_rate_limit cfg now store ip).2.1 = true := by
        cases h : (check_rate_limit cfg now store ip).2.1
        · exact absurd (hallow.mp h) (by omega)
        · rfl
      have hs2 : ((record_request now (check_rate_limit cfg now store ip).1
          ip amt) ip) = some ⟨List.replicate (k + 1) now,
            (((store ip).getD RateRecord.empty).daily_amount.filter
              (fun p => decide (now - 86400 < p.1))) ++ [(now, amt)]⟩ := by
        rw [record_request_store, hstore1]
        simp [List.replicate_succ']
      have := ih (k + 1)
        (record_request now (check_rate_limit cfg now store ip).1 ip amt)
        (by omega) (by rw [hs2]; rfl)
      simp only [rapidCalls, rateCycle, htrue, if_true]
      rw [this, List.range_succ_eq_map, List.map_cons, List.map_map]
      congr 1
      · simp only [Nat.add_zero]
        exact (decide_eq_true hkM).symm
      · apply List.map_congr_left
        intro i _
        simp only [Function.comp]
        exact decide_eq_decide.mpr (by omega)
    · have hkeq : k = cfg.ONRAMP_MAX_REQUESTS_PER_HOUR := by omega
      have hfalse : (check_rate_limit cfg now store ip).2.1 = false :=
        hallow.mpr (by omega)
      have hs1 : (((check_rate_limit cfg now store ip).1 ip).getD
          RateRecord.empty).requests = List.replicate k now := by
        rw [hstore1]; rfl
      have := ih k (check_rate_limit cfg now store ip).1 hk hs1
      simp only [rapidCalls, rateCycle, hfalse, if_false, Bool.false_eq_true]
      rw [this, List.range_succ_eq_map, List.map_cons, List.map_map]
      congr 1
      · simp only [Nat.add_zero]
        exact (decide_eq_false (by omega)).symm
      · apply List.map_congr_left
        intro i _
        simp only [Function.comp]
        exact decide_eq_decide.mpr (by omega)

/-- All-true flag list for at most `max` rapid calls from a fresh store. -/
lemma rapidCalls_fresh_all_true (cfg : Config) (now : ℤ) (ip : String)
    (amt : ℚ) (n : ℕ) (hn : n ≤ cfg.ONRAMP_MAX_REQUESTS_PER_HOUR) :
    (rapidCalls cfg now ip amt n Store.empty).2 = List.replicate n true := by
  rw [rapidCalls_flags cfg now ip amt n 0 Store.empty (by omega) rfl]
  refine List.eq_replicate_iff.mpr ⟨by simp, ?_⟩
  intro b hb
  rcases List.mem_map.mp hb with ⟨i, hi, hbi⟩
  rw [← hbi]
  exact decide_eq_true (by have := List.mem_range.mp hi; omega)

/-- C1. Calling the rate limiter in rapid succession (each allowed call
recorded, as the route does): the first `max` calls are allowed — in
particular any `N < max` rapid calls all return `allowed = true` — the
`(max+1)`-th call returns `allowed = false`, and in general
`check_rate_limit` denies exactly when the request count remaining after
pruning is at least `config.ONRAMP_MAX_REQUESTS_PER_HOUR`. -/
theorem c1_rate_limit_spec (cfg : Config) (now : ℤ) (ip : String) (amt : ℚ) :
    (∀ n, n ≤ cfg.ONRAMP_MAX_REQUESTS_PER_HOUR →
      (rapidCalls cfg now ip amt n Store.empty).2 = List.replicate n true)
    ∧ (rapidCalls cfg now ip amt (cfg.ONRAMP_MAX_REQUESTS_PER_HOUR + 1)
        Store.empty).2 =
        List.replicate cfg.ONRAMP_MAX_REQUESTS_PER_HOUR true ++ [false]
    ∧ (∀ store : Store, (check_rate_limit cfg now store ip).2.1 = false ↔
        cfg.ONRAMP_MAX_REQUESTS_PER_HOUR ≤
          (((store ip).getD RateRecord.empty).requests.filter
            (fun ts => decide (now - 3600 < ts))).length) := by
  refine ⟨fun n hn => rapidCalls_fresh_all_true cfg now ip amt n hn, ?_,
    fun store => check_rate_limit_allowed_iff cfg now store ip⟩
  rw [rapidCalls_flags cfg now ip amt
    (cfg.ONRAMP_MAX_REQUESTS_PER_HOUR + 1) 0 Store.empty (by omega) rfl]
  rw [List.range_succ, List.map_append]
  congr 1
  · refine List.eq_replicate_iff.mpr ⟨by simp, ?_⟩
    intro b hb
    rcases List.mem_map.mp hb with ⟨i, hi, hbi⟩
    rw [← hbi]
    exact decide_eq_true (by have := List.mem_range.mp hi; omega)
  · simp

/-- Witness for C1 at a concrete configuration (hourly max 2): two rapid
calls are both allowed, the third is denied. -/
theorem c1_rate_limit_witness :
    (2 ≤ (2 : ℕ)) ∧
    (rapidCalls ⟨2, 500, 500, "k", "s"⟩ 100 "1.2.3.4" 5 2 Store.empty).2 =
      List.replicate 2 true ∧
    (rapidCalls ⟨2, 500, 500, "k", "s"⟩ 100 "1.2.3.4" 5 3 Store.empty).2 =
      List.replicate 2 true ++ [false] := by
  refine ⟨by decide, ?_, ?_⟩
  · exact (c1_rate_limit_spec ⟨2, 500, 500, "k", "s"⟩ 100 "1.2.3.4" 5).1 2
      (by decide)
  · exact (c1_rate_limit_spec ⟨2, 500, 500, "k", "s"⟩ 100 "1.2.3.4" 5).2.1

/-- `check_amount_limit` returns the store unchanged in every branch. -/
lemma check_amount_limit_store_eq (cfg : Config) (now : ℤ) (store : Store)
    (ip : String) (amount : ℚ) :
    (check_amount_limit cfg now store ip amount).1 = store := by
  cases h : store ip <;> simp only [check_amount_limit, h]
  split <;> rfl

/-- C2 counterexample. With a daily cap of 500, a client identifier that has
no record in the store (so its recorded spend within the trailing 24 hours
sums to 0) requests 501: `0 + 501` strictly exceeds the cap, yet
`check_amount_limit` returns `allowed = true` (it returns early for unknown
clients, before any cap comparison). This refutes the claimed
"denies exactly when the 24-hour sum plus the new amount exceeds the cap". -/
theorem c2_amount_limit_counterexample :
    Store.empty "1.2.3.4" = none ∧
    ((⟨2, 500, 500, "k", "s"⟩ : Config).ONRAMP_MAX_AMOUNT_PER_DAY
      < 0 + 501) ∧
    (check_amount_limit ⟨2, 500, 500, "k", "s"⟩ 0 Store.empty "1.2.3.4"
      501).2.1 = true := by
  refine ⟨rfl, by norm_num, rfl⟩

/-- C2 amended. For a client identifier present in the store,
`check_amount_limit` denies exactly when the recorded spend within the
trailing 24 hours plus the new amount strictly exceeds
`config.ONRAMP_MAX_AMOUNT_PER_DAY`; a client identifier with no record is
always allowed, whatever the amount — and such a brand-new client also
passes `check_rate_limit` (whenever the configured hourly maximum is
positive). -/
theorem c2_amount_limit_spec (cfg : Config) (now : ℤ) (store : Store)
    (ip : String) (amount : ℚ) :
    (store ip = none →
      check_amount_limit cfg now store ip amount = (store, true, none))
    ∧ (∀ r, store ip = some r →
        ((check_amount_limit cfg now store ip amount).2.1 = false ↔
          cfg.ONRAMP_MAX_AMOUNT_PER_DAY <
            ((r.daily_amount.filter
              (fun p => decide (now - 86400 < p.1))).map Prod.snd).sum
              + amount))
    ∧ (store ip = none → 0 < cfg.ONRAMP_MAX_REQUESTS_PER_HOUR →
        (check_rate_limit cfg now store ip).2.1 = true
        ∧ (check_amount_limit cfg now store ip amount).2.1 = true) := by
  refine ⟨?_, ?_, ?_⟩
  · intro h
    simp [check_amount_limit, h]
  · intro r hr
    simp only [check_amount_limit, hr]
    split <;> simp_all
  · intro h hpos
    constructor
    · have := check_rate_limit_allowed_iff cfg now store ip
      cases hb : (check_rate_limit cfg now store ip).2.1
      · exfalso
        have := this.mp hb
        rw [h] at this
        simp [RateRecord.empty] at this
        omega
      · rfl
    · simp [check_amount_limit, h]

/-- Witness for C2's amended statement at concrete inputs: a brand-new
client passes both checks even for an amount above the cap, and a recorded
client is denied exactly when the summed window spend plus the new amount
exceeds the cap. -/
theorem c2_amount_limit_witness :
    Store.empty "1.2.3.4" = none ∧
    (0 < (2 : ℕ)) ∧
    ((check_rate_limit ⟨2, 500, 500, "k", "s"⟩ 0 Store.empty "1.2.3.4").2.1
      = true
      ∧ (check_amount_limit ⟨2, 500, 500, "k", "s"⟩ 0 Store.empty "1.2.3.4"
          501).2.1 = true) := by
  refine ⟨rfl, by decide, ?_⟩
  exact (c2_amount_limit_spec ⟨2, 500, 500, "k", "s"⟩ 0 Store.empty
    "1.2.3.4" 501).2.2 rfl (by decide)

/-- C3 counterexample. With an hourly maximum of 1, a single stored request
stamped exactly at the window boundary (`ts = now - 3600`, here `0 = 3600 -
3600`): the claim says the entry is not pruned and is counted — which would
deny this call (1 ≥ 1). Instead `check_rate_limit` prunes it (the filter
keeps only `ts > now - 3600`) and allows the call, and the entry is gone
from the stored record afterwards. -/
theorem c3_boundary_counterexample :
    ((0 : ℤ) = 3600 - 3600) ∧
    (check_rate_limit ⟨1, 500, 500, "k", "s"⟩ 3600
      (Store.insert Store.empty "1.2.3.4" ⟨[0], []⟩) "1.2.3.4").2.1 = true ∧
    ((check_rate_limit ⟨1, 500, 500, "k", "s"⟩ 3600
      (Store.insert Store.empty "1.2.3.4" ⟨[0], []⟩) "1.2.3.4").1 "1.2.3.4")
      = some ⟨[], []⟩ := by
  refine ⟨by decide, by decide, by decide⟩

/-- C3 amended. Pruning is strict at the boundary: the record written back
by `check_rate_limit` keeps exactly the entries with timestamp strictly
greater than `now` minus the window (3600 s for requests, 86400 s for spend
entries). In particular an entry stamped exactly at the window boundary is
pruned (and hence not counted), and no entry strictly within the window is
ever removed. -/
theorem c3_boundary_spec (cfg : Config) (now : ℤ) (store : Store)
    (ip : String) :
    ∀ r, (check_rate_limit cfg now store ip).1 ip = some r →
      (∀ ts : ℤ, ts ∈ r.requests ↔
        ts ∈ ((store ip).getD RateRecord.empty).requests ∧ now - 3600 < ts)
      ∧ (now - 3600 : ℤ) ∉ r.requests
      ∧ (∀ p : ℤ × ℚ, p ∈ r.daily_amount ↔
          p ∈ ((store ip).getD RateRecord.empty).daily_amount ∧
            now - 86400 < p.1)
      ∧ (∀ p : ℤ × ℚ, p ∈ r.daily_amount → now - 86400 ≠ p.1) := by
  intro r hr
  rw [check_rate_limit_store cfg now store ip] at hr
  cases hr
  refine ⟨?_, ?_, ?_, ?_⟩
  · intro ts
    simp [List.mem_filter]
  · intro hmem
    rw [List.mem_filter] at hmem
    simp only [decide_eq_true_eq] at hmem
    omega
  · intro p
    simp [List.mem_filter]
  · intro p hp
    rw [List.mem_filter] at hp
    simp only [decide_eq_true_eq] at hp
    omega

/-- Witness for C3's amended statement: a record holding one boundary entry
and one in-window entry is pruned to just the in-window entry. -/
theorem c3_boundary_witness :
    ((check_rate_limit ⟨1, 500, 500, "k", "s"⟩ 3600
        (Store.insert Store.empty "1.2.3.4" ⟨[0, 5], [(0, 7)]⟩)
        "1.2.3.4").1 "1.2.3.4" = some ⟨[5], [(0, 7)]⟩) ∧
    ((5 : ℤ) ∈ ([5] : List ℤ) ↔
      (5 : ℤ) ∈ (((Store.insert Store.empty "1.2.3.4"
        ⟨[0, 5], [(0, 7)]⟩ : Store) "1.2.3.4").getD
          RateRecord.empty).requests ∧ (3600 : ℤ) - 3600 < 5) ∧
    ((3600 : ℤ) - 3600 ∉ ([5] : List ℤ)) := by
  have h := c3_boundary_spec ⟨1, 500, 500, "k", "s"⟩ 3600
    (Store.insert Store.empty "1.2.3.4" ⟨[0, 5], [(0, 7)]⟩) "1.2.3.4"
    ⟨[5], [(0, 7)]⟩ (by decide)
  exact ⟨by decide, h.1 5, h.2.1⟩

/-- C6 counterexample. A stored spend entry stamped `0`, checked at
`now = 200000` (so the entry is over 24 hours old, `0 ≤ now - 86400`):
after `check_amount_limit` returns, the stored spend sequence for the
client still contains that stale entry — the claim that
`check_amount_limit` removes out-of-window entries from the stored record
is false (only `check_rate_limit` prunes the store). -/
theorem c6_no_prune_counterexample :
    ((check_amount_limit ⟨2, 500, 500, "k", "s"⟩ 200000
      (Store.insert Store.empty "1.2.3.4" ⟨[], [(0, 5)]⟩) "1.2.3.4"
      10).1 "1.2.3.4" = some ⟨[], [(0, 5)]⟩) ∧
    ¬ ((200000 : ℤ) - 86400 < 0) := by
  refine ⟨by rw [check_amount_limit_store_eq]; decide, by decide⟩

/-- C6 amended. `check_amount_limit` never modifies the store: it filters
the spend entries to the trailing 24-hour window only transiently, to
compute the sum it compares against the cap. The pruning of stored spend
entries happens in `check_rate_limit`, which rewrites the client's record
with both sequences filtered to their windows. -/
theorem c6_no_prune_spec (cfg : Config) (now : ℤ) (store : Store)
    (ip : String) (amount : ℚ) :
    (check_amount_limit cfg now store ip amount).1 = store
    ∧ (∀ r, store ip = some r →
        (check_amount_limit cfg now store ip amount).2.1 =
          !decide (cfg.ONRAMP_MAX_AMOUNT_PER_DAY <
            ((r.daily_amount.filter
              (fun p => decide (now - 86400 < p.1))).map Prod.snd).sum
              + amount))
    ∧ ((check_rate_limit cfg now store ip).1 ip =
        some ⟨((store ip).getD RateRecord.empty).requests.filter
                (fun ts => decide (now - 3600 < ts)),
              ((store ip).getD RateRecord.empty).daily_amount.filter
                (fun p => decide (now - 86400 < p.1))⟩) := by
  refine ⟨check_amount_limit_store_eq cfg now store ip amount, ?_,
    check_rate_limit_store cfg now store ip⟩
  intro r hr
  simp only [check_amount_limit, hr]
  split <;> simp_all

/-- Witness for C6's amended statement at concrete inputs: the store is
returned unchanged and the stale entry is excluded from the transient sum. -/
theorem c6_no_prune_witness :
    ((check_amount_limit ⟨2, 500, 500, "k", "s"⟩ 200000
      (Store.insert Store.empty "1.2.3.4" ⟨[], [(0, 5)]⟩) "1.2.3.4" 10).2.1
      = !decide ((500 : ℚ) <
          (((([((0 : ℤ), (5 : ℚ))] : List (ℤ × ℚ)).filter
            (fun p => decide ((200000 : ℤ) - 86400 < p.1))).map
              Prod.snd).sum + 10))) := by
  exact (c6_no_prune_spec ⟨2, 500, 500, "k", "s"⟩ 200000
    (Store.insert Store.empty "1.2.3.4" ⟨[], [(0, 5)]⟩) "1.2.3.4" 10).2.1
    ⟨[], [(0, 5)]⟩ (by decide)

/-! ### Validator claims -/

/-- C4. `validate_onramp_request` checks its five rules in the fixed order
(address structure, amount ≥ 1, amount ≤ per-transaction maximum, asset,
network), returns the first failing rule's error, `none` when all pass, and
— being a pure function of its arguments in this model, exactly as in the
source — has no side effects. The five concrete cases of the claim are
included, under the hypotheses `10 ≤ maxTx < 10^9` implicit in them. -/
theorem c4_validate_spec (cfg : Config)
    (h10 : (10 : ℚ) ≤ cfg.ONRAMP_MAX_AMOUNT_PER_TX)
    (hbig : cfg.ONRAMP_MAX_AMOUNT_PER_TX < 10 ^ 9) :
    (∀ w amt a n, wallet_address_bad w = true →
      validate_onramp_request cfg w amt a n = some .invalidAddress)
    ∧ (∀ w amt a n, wallet_address_bad w = false → amt < 1 →
        validate_onramp_request cfg w amt a n = some .amountTooLow)
    ∧ (∀ w amt a n, wallet_address_bad w = false → ¬ amt < 1 →
        cfg.ONRAMP_MAX_AMOUNT_PER_TX < amt →
        validate_onramp_request cfg w amt a n = some .amountTooHigh)
    ∧ (∀ w amt a n, wallet_address_bad w = false → ¬ amt < 1 →
        ¬ cfg.ONRAMP_MAX_AMOUNT_PER_TX < amt → a ∉ ["USDC", "ETH", "USDT"] →
        validate_onramp_request cfg w amt a n = some .invalidAsset)
    ∧ (∀ w amt a n, wallet_address_bad w = false → ¬ amt < 1 →
        ¬ cfg.ONRAMP_MAX_AMOUNT_PER_TX < amt → a ∈ ["USDC", "ETH", "USDT"] →
        n ∉ ["base", "ethereum", "polygon"] →
        validate_onramp_request cfg w amt a n = some .invalidNetwork)
    ∧ (∀ w amt a n, wallet_address_bad w = false → ¬ amt < 1 →
        ¬ cfg.ONRAMP_MAX_AMOUNT_PER_TX < amt → a ∈ ["USDC", "ETH", "USDT"] →
        n ∈ ["base", "ethereum", "polygon"] →
        validate_onramp_request cfg w amt a n = none)
    ∧ validate_onramp_request cfg "0xabababababababababababababababababababab"
        10 "USDC" "base" = none
    ∧ validate_onramp_request cfg "bad" 10 "USDC" "base" =
        some .invalidAddress
    ∧ validate_onramp_request cfg "0xabababababababababababababababababababab"
        (1 / 2) "USDC" "base" = some .amountTooLow
    ∧ validate_onramp_request cfg "0xabababababababababababababababababababab"
        (10 ^ 9) "USDC" "base" = some .amountTooHigh
    ∧ validate_onramp_request cfg "0xabababababababababababababababababababab"
        10 "DOGE" "base" = some .invalidAsset := by
  have haddr : wallet_address_bad
      "0xabababababababababababababababababababab" = false := by decide
  have hbadw : wallet_address_bad "bad" = true := by decide
  refine ⟨?_, ?_, ?_, ?_, ?_, ?_, ?_, ?_, ?_, ?_, ?_⟩
  · intro w amt a n hw
    simp [validate_onramp_request, hw]
  · intro w amt a n hw hamt
    simp [validate_onramp_request, hw, hamt]
  · intro w amt a n hw hamt htx
    simp [validate_onramp_request, hw, hamt, htx]
  · intro w amt a n hw hamt htx ha
    simp [validate_onramp_request, hw, hamt, htx, ha]
  · intro w amt a n hw hamt htx ha hn
    simp [validate_onramp_request, hw, hamt, htx, ha, hn]
  · intro w amt a n hw hamt htx ha hn
    simp [validate_onramp_request, hw, hamt, htx, ha, hn]
  · have h2 : ¬ cfg.ONRAMP_MAX_AMOUNT_PER_TX < 10 := by linarith
    norm_num [validate_onramp_request, haddr, h2]
  · norm_num [validate_onramp_request, hbadw]
  · norm_num [validate_onramp_request, haddr]
  · norm_num [validate_onramp_request, haddr, hbig]
    intro h
    linarith
  · have h2 : ¬ cfg.ONRAMP_MAX_AMOUNT_PER_TX < 10 := by linarith
    norm_num [validate_onramp_request, haddr, h2]
    intro h
    exact absurd (h (by decide) (by decide)) (by decide)

/-- Witness for C4 at a concrete configuration (per-transaction maximum
500): the five concrete validation cases of the claim. -/
theorem c4_validate_witness :
    ((10 : ℚ) ≤ 500) ∧ ((500 : ℚ) < 10 ^ 9) ∧
    validate_onramp_request ⟨2, 500, 500, "k", "s"⟩
      "0xabababababababababababababababababababab" 10 "USDC" "base" = none ∧
    validate_onramp_request ⟨2, 500, 500, "k", "s"⟩ "bad" 10 "USDC" "base" =
      some .invalidAddress ∧
    validate_onramp_request ⟨2, 500, 500, "k", "s"⟩
      "0xabababababababababababababababababababab" (1 / 2) "USDC" "base" =
      some .amountTooLow ∧
    validate_onramp_request ⟨2, 500, 500, "k", "s"⟩
      "0xabababababababababababababababababababab" (10 ^ 9) "USDC" "base" =
      some .amountTooHigh ∧
    validate_onramp_request ⟨2, 500, 500, "k", "s"⟩
      "0xabababababababababababababababababababab" 10 "DOGE" "base" =
      some .invalidAsset := by
  have h := c4_validate_spec ⟨2, 500, 500, "k", "s"⟩ (by norm_num)
    (by norm_num)
  exact ⟨by norm_num, by norm_num, h.2.2.2.2.2.2.1, h.2.2.2.2.2.2.2.1,
    h.2.2.2.2.2.2.2.2.1, h.2.2.2.2.2.2.2.2.2.1, h.2.2.2.2.2.2.2.2.2.2⟩

/-- C10. The wallet-address rule is purely structural: any string of
exactly 42 characters beginning with `"0x"` passes the address check — no
hex check is performed on the remaining 40 characters — and validation
proceeds to the amount/asset/network rules. -/
theorem c10_address_structural (cfg : Config) (w : String) (amt : ℚ)
    (a n : String) (h42 : w.data.length = 42)
    (h0x : w.data.take 2 = ['0', 'x']) :
    wallet_address_bad w = false
    ∧ validate_onramp_request cfg w amt a n ≠ some .invalidAddress
    ∧ validate_onramp_request cfg w amt a n =
        (if amt < 1 then some .amountTooLow
         else if cfg.ONRAMP_MAX_AMOUNT_PER_TX < amt then some .amountTooHigh
         else if ¬ (a ∈ ["USDC", "ETH", "USDT"]) then some .invalidAsset
         else if ¬ (n ∈ ["base", "ethereum", "polygon"]) then
           some .invalidNetwork
         else none) := by
  have hbad : wallet_address_bad w = false := by
    have hne : w.data.isEmpty = false := by
      cases hd : w.data
      · rw [hd] at h42; simp at h42
      · simp [hd]
    simp [wallet_address_bad, hne, h0x, h42]
  refine ⟨hbad, ?_, ?_⟩
  · simp only [validate_onramp_request, hbad, Bool.false_eq_true, if_false]
    split
    · simp
    · split
      · simp
      · split
        · simp
        · split <;> simp
  · simp [validate_onramp_request, hbad]

/-- Witness for C10: `"0x"` followed by 40 `'z'` characters — not hex — is
accepted by the address rule and flows on to the later checks (here all
pass, so validation returns `none`). -/
theorem c10_address_structural_witness :
    ("0xzzzzzzzzzzzzzzzzzzzzzzzzzzzzzzzzzzzzzzzz".data.length = 42) ∧
    ("0xzzzzzzzzzzzzzzzzzzzzzzzzzzzzzzzzzzzzzzzz".data.take 2 = ['0', 'x']) ∧
    wallet_address_bad "0xzzzzzzzzzzzzzzzzzzzzzzzzzzzzzzzzzzzzzzzz" = false ∧
    validate_onramp_request ⟨2, 500, 500, "k", "s"⟩
      "0xzzzzzzzzzzzzzzzzzzzzzzzzzzzzzzzzzzzzzzzz" 10 "USDC" "base" ≠
      some .invalidAddress := by
  refine ⟨by decide, by decide, ?_, ?_⟩
  · exact (c10_address_structural ⟨2, 500, 500, "k", "s"⟩
      "0xzzzzzzzzzzzzzzzzzzzzzzzzzzzzzzzzzzzzzzzz" 10 "USDC" "base"
      (by decide) (by decide)).1
  · exact (c10_address_structural ⟨2, 500, 500, "k", "s"⟩
      "0xzzzzzzzzzzzzzzzzzzzzzzzzzzzzzzzzzzzzzzzz" 10 "USDC" "base"
      (by decide) (by decide)).2.1

/-! ### Audit log claims -/

/-- Closed form of replaying `log_onramp_session` from an empty log: the
result is the suffix of the appended entries that fits in 1000 slots. -/
lemma log_fold_closed (es : List LogEntry) :
    List.foldl log_onramp_session [] es = es.drop (es.length - 1000) := by
  induction es using List.reverseRecOn with
  | nil => simp
  | append_singleton es e ih =>
    rw [List.foldl_append, List.foldl_cons, List.foldl_nil, ih,
      log_onramp_session]
    simp only [List.length_append, List.length_singleton]
    by_cases hk : es.length ≤ 1000
    · have h0 : es.length - 1000 = 0 := by omega
      rw [h0, List.drop_zero]
      by_cases heq : es.length = 1000
      · have hc : 1000 < es.length + 1 := by omega
        rw [if_pos hc]
        have h1 : es.length + 1 - 1000 = 1 := by omega
        rw [h1, List.drop_append_of_le_length (by omega)]
      · have hc : ¬ 1000 < es.length + 1 := by omega
        rw [if_neg hc]
        have h1 : es.length + 1 - 1000 = 0 := by omega
        rw [h1, List.drop_zero]
    · have hlen : (es.drop (es.length - 1000)).length = 1000 := by
        rw [List.length_drop]; omega
      have hc : 1000 < (es.drop (es.length - 1000)).length + 1 := by
        rw [hlen]; omega
      rw [if_pos hc, List.drop_append_of_le_length (by omega),
        List.drop_drop, List.drop_append_of_le_length (by omega)]
      have harith : es.length - 1000 + 1 = es.length + 1 - 1000 := by
        omega
      rw [harith]

/-- C5. The audit log is bounded by 1000 entries: one `log_onramp_session`
call preserves the bound, any replay from the empty log respects it,
eviction is FIFO (when the log is full the head — oldest — entry is
dropped and the new entry appended at the tail), and after appending 1001
entries the log is exactly the last 1000 of them, so the first entry — when
not appended again later — is no longer present. -/
theorem c5_audit_log_spec :
    (∀ (logs : List LogEntry) (e : LogEntry), logs.length ≤ 1000 →
      (log_onramp_session logs e).length ≤ 1000)
    ∧ (∀ es : List LogEntry,
        (List.foldl log_onramp_session [] es).length ≤ 1000)
    ∧ (∀ (logs : List LogEntry) (e : LogEntry), logs.length = 1000 →
        log_onramp_session logs e = logs.drop 1 ++ [e])
    ∧ (∀ es : List LogEntry, es.length = 1001 →
        List.foldl log_onramp_session [] es = es.drop 1
        ∧ (List.foldl log_onramp_session [] es).length = 1000)
    ∧ (∀ (e : LogEntry) (es : List LogEntry), (e :: es).length = 1001 →
        e ∉ es → e ∉ List.foldl log_onramp_session [] (e :: es)) := by
  have hstep : ∀ (logs : List LogEntry) (e : LogEntry),
      logs.length ≤ 1000 → (log_onramp_session logs e).length ≤ 1000 := by
    intro logs e h
    rw [log_onramp_session]
    split
    · simp only [List.length_drop, List.length_append, List.length_singleton]
      omega
    next hc =>
      simp only [List.length_append, List.length_singleton] at hc ⊢
      omega
  have hfold : ∀ es : List LogEntry, es.length = 1001 →
      List.foldl log_onramp_session [] es = es.drop 1 := by
    intro es h
    rw [log_fold_closed, h]
  refine ⟨hstep, ?_, ?_, ?_, ?_⟩
  · intro es
    rw [log_fold_closed, List.length_drop]
    omega
  · intro logs e h
    rw [log_onramp_session, if_pos (by simp [List.length_append, h]),
      List.drop_append_of_le_length (by omega)]
  · intro es h
    refine ⟨hfold es h, ?_⟩
    rw [hfold es h, List.length_drop, h]
  · intro e es h hnot
    rw [hfold (e :: es) h, List.drop_one, List.tail_cons]
    exact hnot

/-- An audit-log entry used by the C5 witness, with a distinguishing
timestamp. -/
def mkEntry (i : ℕ) : LogEntry :=
  ⟨i, "sid", "0xw", 1, "USDC", "base", "1.2.3.4"⟩

/-- Witness for C5: 1001 pairwise-distinct concrete entries; after the
replay the log is the last 1000 of them, has length 1000, and the first
entry is gone. -/
theorem c5_audit_log_witness :
    ((mkEntry 0 :: (List.range 1000).map (fun i => mkEntry (i + 1))).length
      = 1001) ∧
    (mkEntry 0 ∉ (List.range 1000).map (fun i => mkEntry (i + 1))) ∧
    (mkEntry 0 ∉ List.foldl log_onramp_session []
      (mkEntry 0 :: (List.range 1000).map (fun i => mkEntry (i + 1)))) := by
  have hlen : (mkEntry 0 ::
      (List.range 1000).map (fun i => mkEntry (i + 1))).length = 1001 := by
    simp
  have hnot : mkEntry 0 ∉
      (List.range 1000).map (fun i => mkEntry (i + 1)) := by
    intro hmem
    rcases List.mem_map.mp hmem with ⟨i, _, hi⟩
    have := congrArg LogEntry.timestamp hi
    simp only [mkEntry] at this
    omega
  exact ⟨hlen, hnot,
    c5_audit_log_spec.2.2.2.2 (mkEntry 0)
      ((List.range 1000).map (fun i => mkEntry (i + 1))) hlen hnot⟩

/-! ### Credential signer and token client claims -/

/-- `token_hex` produces two characters per input byte. -/
lemma token_hex_length (bytes : List ℕ) :
    (token_hex bytes).data.length = 2 * bytes.length := by
  induction bytes with
  | nil => rfl
  | cons b bs ih =>
    simp only [token_hex, List.map_cons, List.flatten_cons] at *
    simp [ih]
    omega

/-- C7. The assertion built by `generate_coinbase_jwt` (whenever the key and
secret are configured): subject = API key id, issuer = the constant "cdp",
not-before = the current time, expiry = not-before + 120 seconds exactly,
the authorized-action claim is the single entry
"POST api.developer.coinbase.com/onramp/v1/token", and the header carries
the key id and the hex encoding of the 16 freshly drawn random bytes
(128 bits, 32 hex characters). -/
theorem c7_jwt_structure (cfg : Config) (now : ℤ) (nonceBytes : List ℕ)
    (hk : cfg.COINBASE_API_KEY ≠ "") (hs : cfg.COINBASE_API_SECRET ≠ "")
    (hn : nonceBytes.length = 16) :
    ∃ p h, generate_coinbase_jwt cfg now nonceBytes = .ok (p, h)
      ∧ p.sub = cfg.COINBASE_API_KEY
      ∧ p.iss = "cdp"
      ∧ p.nbf = now
      ∧ p.exp = p.nbf + 120
      ∧ p.uris = ["POST api.developer.coinbase.com/onramp/v1/token"]
      ∧ h.kid = cfg.COINBASE_API_KEY
      ∧ h.nonce = token_hex nonceBytes
      ∧ h.nonce.data.length = 32 := by
  have hok : generate_coinbase_jwt cfg now nonceBytes = .ok
      (⟨cfg.COINBASE_API_KEY, "cdp", ["cdp_service"], now, now + 120,
        ["POST api.developer.coinbase.com/onramp/v1/token"]⟩,
       ⟨"EdDSA", cfg.COINBASE_API_KEY, "JWT", token_hex nonceBytes⟩) := by
    simp [generate_coinbase_jwt, hk, hs]
  refine ⟨_, _, hok, rfl, rfl, rfl, rfl, rfl, rfl, rfl, ?_⟩
  show (token_hex nonceBytes).data.length = 32
  rw [token_hex_length, hn]

/-- Witness for C7 at a concrete configuration and concrete nonce bytes. -/
theorem c7_jwt_structure_witness :
    ("key" ≠ "") ∧ ("secret" ≠ "") ∧ ((List.range 16).length = 16) ∧
    ∃ p h, generate_coinbase_jwt ⟨2, 500, 500, "key", "secret"⟩ 1000
        (List.range 16) = .ok (p, h)
      ∧ p.sub = "key" ∧ p.iss = "cdp" ∧ p.nbf = 1000 ∧ p.exp = p.nbf + 120
      ∧ p.uris = ["POST api.developer.coinbase.com/onramp/v1/token"]
      ∧ h.kid = "key" ∧ h.nonce = token_hex (List.range 16)
      ∧ h.nonce.data.length = 32 :=
  ⟨by decide, by decide, by decide,
    c7_jwt_structure ⟨2, 500, 500, "key", "secret"⟩ 1000 (List.range 16)
      (by decide) (by decide) (by decide)⟩

/-- C8. `get_coinbase_session_token` as a function of the provider response:
a non-200 status fails with a remote-API error carrying the status code and
the response body; a 200 response without a "token" field fails with the
protocol error; a 200 response with a "token" field returns that token; and
`generate_coinbase_jwt` fails with the configuration error when the API key
or the secret is absent. -/
theorem c8_token_error_handling (resp : CoinbaseResponse) (cfg : Config)
    (now : ℤ) (nonceBytes : List ℕ) :
    (resp.status_code ≠ 200 →
      get_coinbase_session_token resp =
        .error (.apiError resp.status_code resp.text))
    ∧ (resp.status_code = 200 → resp.json.lookup "token" = none →
        get_coinbase_session_token resp = .error .noToken)
    ∧ (∀ t, resp.status_code = 200 → resp.json.lookup "token" = some t →
        get_coinbase_session_token resp = .ok t)
    ∧ (cfg.COINBASE_API_KEY = "" ∨ cfg.COINBASE_API_SECRET = "" →
        generate_coinbase_jwt cfg now nonceBytes = .error .configError) := by
  refine ⟨?_, ?_, ?_, ?_⟩
  · intro h
    simp [get_coinbase_session_token, h]
  · intro h hl
    simp [get_coinbase_session_token, h, hl]
  · intro t h hl
    simp [get_coinbase_session_token, h, hl]
  · intro h
    simp [generate_coinbase_jwt, h]

/-- Witness for C8 on concrete responses: a 500 error body, a 200 response
with no token field, a 200 response with a token, and a configuration with
an empty API key. -/
theorem c8_token_error_handling_witness :
    (get_coinbase_session_token ⟨500, "boom", []⟩ =
      .error (.apiError 500 "boom")) ∧
    (get_coinbase_session_token ⟨200, "{}", [("other", "x")]⟩ =
      .error .noToken) ∧
    (get_coinbase_session_token ⟨200, "{}", [("token", "tok123")]⟩ =
      .ok "tok123") ∧
    (generate_coinbase_jwt ⟨2, 500, 500, "", "secret"⟩ 1000 [] =
      .error .configError) := by
  refine ⟨?_, ?_, ?_, ?_⟩
  · exact (c8_token_error_handling ⟨500, "boom", []⟩
      ⟨2, 500, 500, "", "secret"⟩ 1000 []).1 (by decide)
  · exact (c8_token_error_handling ⟨200, "{}", [("other", "x")]⟩
      ⟨2, 500, 500, "", "secret"⟩ 1000 []).2.1 rfl (by decide)
  · exact (c8_token_error_handling ⟨200, "{}", [("token", "tok123")]⟩
      ⟨2, 500, 500, "", "secret"⟩ 1000 []).2.2.1 "tok123" rfl (by decide)
  · exact (c8_token_error_handling ⟨200, "{}", []⟩
      ⟨2, 500, 500, "", "secret"⟩ 1000 []).2.2.2 (Or.inl rfl)

/-! ### URL query encoding round trip -/

/-- `hexUpper` of a hex digit value is an ASCII hex digit byte. -/
lemma hexUpper_isHex (d : ℕ) (hd : d < 16) :
    isHexByte (hexUpper d) = true := by
  unfold hexUpper isHexByte
  split <;> simp <;> omega

/-- `hexVal` inverts `hexUpper` on hex digit values. -/
lemma hexVal_hexUpper (d : ℕ) (hd : d < 16) : hexVal (hexUpper d) = d := by
  unfold hexUpper hexVal
  split <;> (split <;> try split) <;> omega

/-- `hexUpper` never produces the separator bytes `&` (38) or `=` (61),
nor `%` (37) or `+` (43). -/
lemma hexUpper_ne_special (d : ℕ) :
    hexUpper d ≠ 38 ∧ hexUpper d ≠ 61 ∧ hexUpper d ≠ 37 ∧
      hexUpper d ≠ 43 := by
  unfold hexUpper
  split <;> omega

/-- A safe byte is not one of the special bytes `&`, `=`, `%`, `+`. -/
lemma isSafeByte_ne_special (b : ℕ) (h : isSafeByte b = true) :
    b ≠ 38 ∧ b ≠ 61 ∧ b ≠ 37 ∧ b ≠ 43 := by
  unfold isSafeByte at h
  simp at h
  omega

/-- No byte emitted by `quoteByte` is a query separator (`&` or `=`). -/
lemma quoteByte_mem_ne_sep (b c : ℕ) (hc : c ∈ quoteByte b) :
    c ≠ 38 ∧ c ≠ 61 := by
  unfold quoteByte at hc
  split at hc
  · rename_i hsafe
    simp at hc
    subst hc
    exact ⟨(isSafeByte_ne_special _ hsafe).1, (isSafeByte_ne_special _
      hsafe).2.1⟩
  · split at hc
    · simp at hc
      omega
    · simp at hc
      rcases hc with rfl | rfl | rfl
      · omega
      · exact ⟨(hexUpper_ne_special _).1, (hexUpper_ne_special _).2.1⟩
      · exact ⟨(hexUpper_ne_special _).1, (hexUpper_ne_special _).2.1⟩

/-- No byte of a `quote_plus`-encoded string is a query separator. -/
lemma mem_quotePlus_ne_sep (s : List ℕ) (c : ℕ) (hc : c ∈ quotePlus s) :
    c ≠ 38 ∧ c ≠ 61 := by
  unfold quotePlus at hc
  rcases List.mem_flatten.mp hc with ⟨l, hl, hcl⟩
  rcases List.mem_map.mp hl with ⟨b, _, hbl⟩
  exact quoteByte_mem_ne_sep b c (hbl ▸ hcl)

/-- A literal (non-`%`, non-`+`) head byte passes through `unquotePlus`. -/
lemma unquotePlus_cons_other (b : ℕ) (rest : List ℕ) (h37 : b ≠ 37)
    (h43 : b ≠ 43) : unquotePlus (b :: rest) = b :: unquotePlus rest := by
  cases rest with
  | nil =>
    rw [unquotePlus.eq_def]
    split <;> simp_all
  | cons x rest2 =>
    cases rest2 with
    | nil =>
      rw [unquotePlus.eq_def]
      split <;> simp_all
    | cons y rest3 =>
      rw [unquotePlus.eq_def]
      split <;> simp_all

/-- Decoding inverts `quoteByte` at the head of the stream. -/
lemma unquotePlus_quoteByte (b : ℕ) (hb : b < 256) (rest : List ℕ) :
    unquotePlus (quoteByte b ++ rest) = b :: unquotePlus rest := by
  unfold quoteByte
  split
  · rename_i hsafe
    simp only [List.cons_append, List.nil_append]
    exact unquotePlus_cons_other b rest
      (isSafeByte_ne_special _ hsafe).2.2.1
      (isSafeByte_ne_special _ hsafe).2.2.2
  · split
    · rename_i hsp
      simp only [List.cons_append, List.nil_append, unquotePlus]
      simp at hsp
      rw [hsp]
      rfl
    · have h1 : isHexByte (hexUpper (b / 16)) = true :=
        hexUpper_isHex _ (by omega)
      have h2 : isHexByte (hexUpper (b % 16)) = true :=
        hexUpper_isHex _ (by omega)
      simp only [List.cons_append, List.nil_append, unquotePlus, h1, h2,
        Bool.and_self, if_true]
      rw [hexVal_hexUpper _ (by omega), hexVal_hexUpper _ (by omega)]
      have : b / 16 * 16 + b % 16 = b := by omega
      rw [this]
      rfl

/-- Round trip of `quote_plus` / `unquote_plus` on byte strings. -/
lemma unquotePlus_quotePlus (s : List ℕ) (h : ∀ b ∈ s, b < 256) :
    unquotePlus (quotePlus s) = s := by
  induction s with
  | nil => rfl
  | cons b bs ih =>
    have hq : quotePlus (b :: bs) = quoteByte b ++ quotePlus bs := by
      simp [quotePlus]
    rw [hq, unquotePlus_quoteByte b (h b (by simp)),
      ih (fun x hx => h x (by simp [hx]))]

/-- A component with no `&` byte is a single split field. -/
lemma splitAmp_no_amp (l : List ℕ) (h : ∀ c ∈ l, c ≠ 38) :
    splitAmp l = [l] := by
  induction l with
  | nil => rfl
  | cons b bs ih =>
    have hb : b ≠ 38 := h b (by simp)
    have hbs : splitAmp bs = [bs] := ih (fun c hc => h c (by simp [hc]))
    simp [splitAmp, hb, hbs]

/-- Splitting after an `&`-free component peels it off. -/
lemma splitAmp_append (a rest : List ℕ) (h : ∀ c ∈ a, c ≠ 38) :
    splitAmp (a ++ 38 :: rest) = a :: splitAmp rest := by
  induction a with
  | nil => simp [splitAmp]
  | cons c a ih =>
    have hc : c ≠ 38 := h c (by simp)
    have iha := ih (fun x hx => h x (by simp [hx]))
    simp [splitAmp, hc, iha]

/-- `takeWhile (· ≠ 61)` recovers the key of an encoded pair. -/
lemma takeWhile_ne61 (k v : List ℕ) (h : ∀ c ∈ k, c ≠ 61) :
    (k ++ 61 :: v).takeWhile (fun c => c != 61) = k := by
  induction k with
  | nil => simp
  | cons c kk ih =>
    have hc : c ≠ 61 := h c (by simp)
    show List.takeWhile (fun c => c != 61) (c :: (kk ++ 61 :: v)) = c :: kk
    rw [List.takeWhile_cons, if_pos (by simpa using hc),
      ih (fun x hx => h x (by simp [hx]))]

/-- `dropWhile (· ≠ 61)` stops at the separator of an encoded pair. -/
lemma dropWhile_ne61 (k v : List ℕ) (h : ∀ c ∈ k, c ≠ 61) :
    (k ++ 61 :: v).dropWhile (fun c => c != 61) = 61 :: v := by
  induction k with
  | nil => simp
  | cons c kk ih =>
    have hc : c ≠ 61 := h c (by simp)
    show List.dropWhile (fun c => c != 61) (c :: (kk ++ 61 :: v)) = 61 :: v
    rw [List.dropWhile_cons, if_pos (by simpa using hc)]
    exact ih (fun x hx => h x (by simp [hx]))

/-- Decoding one `key=value` component inverts the encoding. -/
lemma parsePair_encoded (k v : List ℕ) (hk : ∀ b ∈ k, b < 256)
    (hv : ∀ b ∈ v, b < 256) :
    parsePair (quotePlus k ++ 61 :: quotePlus v) = (k, v) := by
  unfold parsePair
  rw [takeWhile_ne61 _ _ (fun c hc => (mem_quotePlus_ne_sep k c hc).2),
    dropWhile_ne61 _ _ (fun c hc => (mem_quotePlus_ne_sep k c hc).2)]
  simp only [List.drop_succ_cons, List.drop_zero]
  rw [unquotePlus_quotePlus k hk, unquotePlus_quotePlus v hv]

/-- Full round trip: standard query decoding of an `urlencode` output
recovers the parameter list (for byte-valued keys and values). -/
lemma parseQuery_urlencode (ps : List (List ℕ × List ℕ)) (hne : ps ≠ [])
    (h256 : ∀ p ∈ ps, (∀ b ∈ p.1, b < 256) ∧ (∀ b ∈ p.2, b < 256)) :
    parseQuery (urlencode ps) = ps := by
  induction ps with
  | nil => exact absurd rfl hne
  | cons p ps2 ih =>
    rcases h256 p (by simp) with ⟨hk, hv⟩
    have hnoamp : ∀ c ∈ quotePlus p.1 ++ 61 :: quotePlus p.2, c ≠ 38 := by
      intro c hc
      rcases List.mem_append.mp hc with h1 | h1
      · exact (mem_quotePlus_ne_sep _ c h1).1
      · rcases List.mem_cons.mp h1 with h2 | h2
        · omega
        · exact (mem_quotePlus_ne_sep _ c h2).1
    cases ps2 with
    | nil =>
      unfold urlencode parseQuery joinAmp
      simp only [List.map_cons, List.map_nil]
      rw [splitAmp_no_amp _ hnoamp]
      simp only [List.map_cons, List.map_nil]
      rw [parsePair_encoded p.1 p.2 hk hv]
    | cons q ps3 =>
      have hjoin : urlencode (p :: q :: ps3) =
          (quotePlus p.1 ++ 61 :: quotePlus p.2) ++ 38 ::
            urlencode (q :: ps3) := by
        simp [urlencode, joinAmp]
      unfold parseQuery
      rw [hjoin, splitAmp_append _ _ hnoamp]
      simp only [List.map_cons]
      rw [parsePair_encoded p.1 p.2 hk hv]
      have := ih (by simp) (fun x hx => h256 x (by simp [hx]))
      unfold parseQuery at this
      rw [this]

/-- C9. The URL built by `generate_coinbase_onramp_url` starts with the
fixed base `https://pay.coinbase.com/buy?`, and standard URL query decoding
of its query string yields exactly the input parameters `sessionToken`,
`defaultAsset`, `defaultNetwork`, `presetFiatAmount` (the amount as its
decimal rendering `str(amount_usd)`): the percent encoding round-trips. -/
theorem c9_url_roundtrip (session_token amountStr asset network : List ℕ)
    (h1 : ∀ b ∈ session_token, b < 256) (h2 : ∀ b ∈ amountStr, b < 256)
    (h3 : ∀ b ∈ asset, b < 256) (h4 : ∀ b ∈ network, b < 256) :
    (generate_coinbase_onramp_url session_token amountStr asset
      network).take 29 = strBytes "https://pay.coinbase.com/buy" ++ [63]
    ∧ parseQuery ((generate_coinbase_onramp_url session_token amountStr
        asset network).drop 29) =
        [(strBytes "sessionToken", session_token),
         (strBytes "defaultAsset", asset),
         (strBytes "defaultNetwork", network),
         (strBytes "presetFiatAmount", amountStr)] := by
  have hsplit : generate_coinbase_onramp_url session_token amountStr asset
      network = (strBytes "https://pay.coinbase.com/buy" ++ [63]) ++
        urlencode
          [(strBytes "sessionToken", session_token),
           (strBytes "defaultAsset", asset),
           (strBytes "defaultNetwork", network),
           (strBytes "presetFiatAmount", amountStr)] := by
    simp [generate_coinbase_onramp_url]
  have hlen : (strBytes "https://pay.coinbase.com/buy" ++
      [(63 : ℕ)]).length = 29 := by decide
  constructor
  · rw [hsplit, List.take_left' hlen]
  · rw [hsplit, List.drop_left' hlen]
    apply parseQuery_urlencode _ (by simp)
    intro p hp
    simp only [List.mem_cons, List.not_mem_nil, or_false] at hp
    rcases hp with rfl | rfl | rfl | rfl
    · exact ⟨(by decide : ∀ b ∈ strBytes "sessionToken", b < 256), h1⟩
    · exact ⟨(by decide : ∀ b ∈ strBytes "defaultAsset", b < 256), h3⟩
    · exact ⟨(by decide : ∀ b ∈ strBytes "defaultNetwork", b < 256), h4⟩
    · exact ⟨(by decide : ∀ b ∈ strBytes "presetFiatAmount", b < 256), h2⟩

/-- Witness for C9 on concrete parameters containing characters that need
escaping (space, `&`, `=`): the query string parses back to exactly the
inputs. -/
theorem c9_url_roundtrip_witness :
    ((∀ b ∈ strBytes "tok en&", b < 256) ∧
      (∀ b ∈ strBytes "50.5", b < 256) ∧
      (∀ b ∈ strBytes "USDC", b < 256) ∧
      (∀ b ∈ strBytes "base=", b < 256)) ∧
    parseQuery ((generate_coinbase_onramp_url (strBytes "tok en&")
      (strBytes "50.5") (strBytes "USDC") (strBytes "base=")).drop 29) =
      [(strBytes "sessionToken", strBytes "tok en&"),
       (strBytes "defaultAsset", strBytes "USDC"),
       (strBytes "defaultNetwork", strBytes "base="),
       (strBytes "presetFiatAmount", strBytes "50.5")] := by
  refine ⟨⟨by decide, by decide, by decide, by decide⟩, ?_⟩
  exact (c9_url_roundtrip (strBytes "tok en&") (strBytes "50.5")
    (strBytes "USDC") (strBytes "base=") (by decide) (by decide)
    (by decide) (by decide)).2

end Onramp
